import Mathlib

/-
Verification of the stocks fetch pipeline of investment-analyser-config.

Shallow embedding conventions:
* Python exception objects with a cause/context chain become the inductive
  `PyExc` (a message plus an optional chained inner exception).
* Python dicts become association lists `List (String × β)` with
  insertion-order-preserving overwrite (`dictSet`) and lookup (`dictGet`).
* A function that can raise becomes a function into `Except`.
* Python floats are modelled by exact rationals `ℚ`; float `NaN` (as produced
  by pandas reductions over empty series) is modelled by `Option.none`;
  quantities involving square roots or real powers live in `ℝ`.
* Thread pools are modelled by processing the submitted symbols sequentially:
  every property proved here is insensitive to completion order, and the
  result collections are keyed by symbol exactly as in the source.
-/

set_option maxHeartbeats 1000000
set_option linter.unusedVariables false

/-- Python exception with an optional cause/context chain:
`wrap m e` is an exception with message `m` raised while handling (or from) `e`;
`base m` has no further cause. -/
inductive PyExc where
  | base : String → PyExc
  | wrap : String → PyExc → PyExc
deriving DecidableEq

/-- Message of the exception itself (`str(e)` in Python). -/
def PyExc.msg : PyExc → String
  | .base m => m
  | .wrap m _ => m

/-- Modelled from the spec: `get_root_error_message` (referenced from
`src/stocks/export_all_stocks.py` line 91 and `src/stocks/export.py` line 33
but not present under `src/`) walks the exception's cause/context chain to its
deepest origin and returns that exception's message. -/
def get_root_error_message : PyExc → String
  | .base m => m
  | .wrap _ e => get_root_error_message e

/-- Python dict assignment `d[k] = v`: overwrite in place if the key is
present, else append (Python dicts preserve insertion order). -/
def dictSet {β : Type} : List (String × β) → String → β → List (String × β)
  | [], k, v => [(k, v)]
  | (k0, v0) :: t, k, v =>
      if k0 = k then (k0, v) :: t else (k0, v0) :: dictSet t k v

/-- Python dict lookup `d.get(k, None)`. -/
def dictGet {β : Type} : List (String × β) → String → Option β
  | [], _ => Option.none
  | (k0, v0) :: t, k => if k0 = k then Option.some v0 else dictGet t k

/-- Python values appearing in a per-ticker result dict. -/
inductive PyVal where
  | str : String → PyVal
  | num : ℚ → PyVal
  | bool : Bool → PyVal
  | none : PyVal
deriving DecidableEq

/-- Python truthiness of a value (`if industry` on a possibly empty string). -/
def pyTruthy : PyVal → Bool
  | .str s => s ≠ ""
  | .num q => q ≠ 0
  | .bool b => b
  | .none => false

/-- A per-ticker result dict produced by a fetch. -/
def TickerDict : Type := List (String × PyVal)

/-- Helper loop of `export_ticker_data` (src/stocks/export_all_stocks.py,
lines 78-92): one symbol is processed per completed future; a successful fetch
appends its record to `results`, a failed fetch records
`errors[ticker] = stock_utils.get_root_error_message(e)`.  `fetch` is the
outcome of `fetch_ticker_data` for each submitted symbol. -/
def exportTickerDataGo (fetch : String → Except PyExc TickerDict) :
    List String → List TickerDict × List (String × String) →
    List TickerDict × List (String × String)
  | [], acc => acc
  | t :: ts, acc =>
      match fetch t with
      | .ok d => exportTickerDataGo fetch ts (acc.1 ++ [d], acc.2)
      | .error e =>
          exportTickerDataGo fetch ts
            (acc.1, dictSet acc.2 t (get_root_error_message e))

/-- Embedding of `export_ticker_data` (src/stocks/export_all_stocks.py,
lines 73-105), restricted to its result collection (the JSON/file output is
an external boundary). -/
def export_ticker_data (fetch : String → Except PyExc TickerDict)
    (tickers : List String) : List TickerDict × List (String × String) :=
  exportTickerDataGo fetch tickers ([], [])

/-- Success side of a symbol's fetch outcome. -/
def fetchOk (fetch : String → Except PyExc TickerDict) (t : String) :
    Option TickerDict :=
  match fetch t with
  | .ok d => Option.some d
  | .error _ => Option.none

/-- Error side of a symbol's fetch outcome, as the recorded entry. -/
def fetchErr (fetch : String → Except PyExc TickerDict) (t : String) :
    Option (String × String) :=
  match fetch t with
  | .ok _ => Option.none
  | .error e => Option.some (t, get_root_error_message e)

/-- Abstract outcome of the provider sub-fetches used by
`StockFetcher.fetch_ticker` (src/stocks/stock_fetcher.py, lines 110-163) for
one symbol: the issuer `info` mapping plus the already-computed metric values
(their own definitions are embedded separately below); `currentPriceFallback`
is `csv_data.iloc[-1][price_col]`. -/
structure FetchedData where
  info : String → Option PyVal
  volatility : PyVal
  dividendFrequency : String
  isDowngrading : Bool
  shortTermCagr : PyVal
  longTermCagr : PyVal
  currentPriceFallback : ℚ

/-- Embedding of `StockFetcher.safe_get` (src/stocks/stock_fetcher.py,
lines 103-108): `info.get(key, default)` with any lookup failure replaced by
the default. -/
def safe_get (info : String → Option PyVal) (key : String) (default : PyVal) : PyVal :=
  (info key).getD default

/-- String content of a `PyVal` expected to be a string (used for
`quoteType`, `industry`, `sector`, which the source treats as strings). -/
def pyStr : PyVal → String
  | .str s => s
  | _ => ""

/-- Python `str.lower()` on the ASCII quote-type strings involved. -/
def pyLower (s : String) : String := String.mk (s.data.map Char.toLower)

/-- Record dict built by `StockFetcher.fetch_ticker` (src/stocks/stock_fetcher.py,
lines 130-163): the base dict literal, then the two CAGR assignments, then the
instrument-type branch overwriting `industry`/`sector` and adding `marketCap`. -/
def buildTickerRecord (ticker : String) (d : FetchedData) : TickerDict :=
  let tickerType := pyStr (safe_get d.info "quoteType" (.str ""))
  let industry := safe_get d.info "industry" (.str "")
  let sector := safe_get d.info "sector" (.str "")
  let base : TickerDict :=
    [("ticker", .str ticker),
     ("companyName", safe_get d.info "longName" (.str "")),
     ("industry", industry),
     ("sector", sector),
     ("exchange", safe_get d.info "exchange" (.str "")),
     ("type", .str tickerType),
     ("country", safe_get d.info "region" (.str "")),
     ("currency", safe_get d.info "currency" (.str "")),
     ("beta", safe_get d.info "beta" (.str "")),
     ("volatility", d.volatility),
     ("dividendYield", safe_get d.info "dividendYield" (.str "")),
     ("dividendFrequency", .str d.dividendFrequency),
     ("website", safe_get d.info "website" (.str "")),
     ("currentPrice", safe_get d.info "currentPrice" (.num d.currentPriceFallback)),
     ("isDowngrading", .bool d.isDowngrading)]
  let withCagr := dictSet (dictSet base "shortTermCagr" d.shortTermCagr)
    "longTermCagr" d.longTermCagr
  if pyLower tickerType = "etf" then
    let r1 := dictSet withCagr "marketCap" (safe_get d.info "totalAssets" (.str ""))
    let r2 := dictSet r1 "industry"
      (if pyTruthy industry then industry else .str "Exchange-Traded Fund")
    dictSet r2 "sector" (if pyTruthy sector then sector else .str "Exchange-Traded Fund")
  else if pyLower tickerType = "mutualfund" then
    let r1 := dictSet withCagr "marketCap" (safe_get d.info "marketCap" (.str ""))
    let r2 := dictSet r1 "industry"
      (if pyTruthy industry then industry else .str "Mutual Fund")
    dictSet r2 "sector" (if pyTruthy sector then sector else .str "Mutual Fund")
  else
    dictSet withCagr "marketCap" (safe_get d.info "marketCap" (.str ""))

/-- Embedding of `StockFetcher.fetch_ticker` (src/stocks/stock_fetcher.py,
lines 110-165): `env t attempt` is the combined outcome of the provider
sub-fetches for symbol `t` on global attempt `attempt`; any exception is
re-raised as `RuntimeError("Failed to fetch <t>: <str(e)>")` chained to the
original. -/
def fetch_ticker (env : String → ℕ → Except PyExc FetchedData)
    (t : String) (attempt : ℕ) : Except PyExc TickerDict :=
  match env t attempt with
  | .ok d => .ok (buildTickerRecord t d)
  | .error e => .error (.wrap ("Failed to fetch " ++ t ++ ": " ++ e.msg) e)

/-- Worker-count schedule of `export_ticker` (src/stocks/export_all.py,
lines 19-26): `factor = (1 - 0.2) ** (global_attempt - 1)` and
`current_workers = max(int(max_workers * factor), min_workers)` with
`min_workers = 10`; `int()` on these non-negative floats is a floor.
Note `(4/5)^attempt * (5/4) = (4/5)^(attempt - 1)` also at `attempt = 0`,
where the Python exponent is `-1`. -/
def current_workers (maxWorkers : ℕ) (attempt : ℕ) : ℤ :=
  max ⌊(maxWorkers : ℚ) * ((4 / 5 : ℚ) ^ attempt * (5 / 4))⌋ 10

/-- One round of `export_ticker` (src/stocks/export_all.py, lines 28-38):
every remaining symbol is submitted once and
`results[ticker] = future.result()` is stored; `future.result()` re-raises a
fetch exception, which nothing in the loop catches, so it aborts the round. -/
def runRound (fetch : String → ℕ → Except PyExc TickerDict) (attempt : ℕ) :
    List String → List (String × TickerDict) →
    Except PyExc (List (String × TickerDict))
  | [], results => .ok results
  | t :: ts, results =>
      match fetch t attempt with
      | .ok r => runRound fetch attempt ts (dictSet results t r)
      | .error e => .error e

/-- Round loop of `export_ticker` (src/stocks/export_all.py, lines 24-49).
After a completed round, `failed` is the set of tickers whose result dict has
a non-`None` `"error"` entry; the loop stops early when it is empty.  The
returned `ℕ` counts the rounds that were executed. -/
def exportTickerLoop (fetch : String → ℕ → Except PyExc TickerDict) :
    ℕ → ℕ → List String → List (String × TickerDict) →
    Except PyExc (List (String × TickerDict) × ℕ)
  | _, 0, _, results => .ok (results, 0)
  | attempt, fuel + 1, remaining, results =>
      match runRound fetch attempt remaining results with
      | .error e => .error e
      | .ok results2 =>
          let failed := (results2.filter
            (fun p => dictGet p.2 "error" ≠ Option.none)).map Prod.fst
          if failed.isEmpty then .ok (results2, 1)
          else
            match exportTickerLoop fetch (attempt + 1) fuel failed results2 with
            | .error e => .error e
            | .ok (res, n) => .ok (res, n + 1)

/-- Embedding of `export_ticker` (src/stocks/export_all.py, lines 16-63),
restricted to its result collection: `remaining = set(tickers)` is modelled by
deduplication, and rounds run for `global_attempt in range(max_global_retries)`
with early exit when no result carries an `"error"` entry.  File output, the
never-populated `errors` dict and the inter-round sleep are external or dead
code. -/
def export_ticker (fetch : String → ℕ → Except PyExc TickerDict)
    (tickers : List String) (maxGlobalRetries : ℕ) :
    Except PyExc (List (String × TickerDict) × ℕ) :=
  exportTickerLoop fetch 0 maxGlobalRetries tickers.dedup []

/-- Delay computed on one failed attempt inside the retry wrapper
(src/stocks/stock_retry.py, lines 17-21):
`curr_delay = 0.9 * (external_attempt * (external_attempt + 1)) // 2`,
then `curr_delay = min(curr_delay, max_delay)`, then the jitter draw is added
when `jitter` is on.  `0.9` is the rational `9/10` and float `//` is floor
division.  The external attempt comes from `kwargs.get("attempt", 0)`; the
configured `delay` and `backoff` are unused (source lines 15-16 are commented
out). -/
def curr_delay (externalAttempt : ℕ) (maxDelay : ℚ) (jitterOn : Bool)
    (jitterDraw : ℚ) : ℚ :=
  let base : ℚ := ((⌊(9 / 10 : ℚ) * (externalAttempt * (externalAttempt + 1)) / 2⌋ : ℤ) : ℚ)
  let capped := min base maxDelay
  if jitterOn then capped + jitterDraw else capped

/-- Observable trace of one call of a retry-wrapped function: the final
outcome, the number of invocations of the wrapped function, and the sleep
durations in order. -/
structure RetryTrace (α : Type) where
  outcome : Except String α
  calls : ℕ
  sleeps : List ℚ

/-- Loop body of the retry wrapper (src/stocks/stock_retry.py, lines 11-28):
`op i` is the outcome of the i-th invocation of the wrapped function and
`jitters i` the i-th `random.uniform(0.1, 0.5)` draw; the first component is
`Option.some` of the returned value if some invocation within the budget
succeeds. -/
def retryGo {α : Type} (op : ℕ → Except String α) (externalAttempt : ℕ)
    (maxDelay : ℚ) (jitterOn : Bool) (jitters : ℕ → ℚ) :
    ℕ → ℕ → Option α × ℕ × List ℚ
  | _, 0 => (Option.none, 0, [])
  | i, fuel + 1 =>
      match op i with
      | .ok a => (Option.some a, 1, [])
      | .error _ =>
          let d := curr_delay externalAttempt maxDelay jitterOn (jitters i)
          let r := retryGo op externalAttempt maxDelay jitterOn jitters (i + 1) fuel
          (r.1, r.2.1 + 1, d :: r.2.2)

/-- Embedding of the wrapper produced by the `retry` decorator
(src/stocks/stock_retry.py, lines 6-33): run the wrapped function for at most
`maxRetries` iterations, sleeping after every failure; when the loop exhausts
its range, raise `RuntimeError("❌ <func name> failed after <max_retries>
retries.")`.  The `delay` and `backoff` parameters are accepted but, as in the
source, never used. -/
def retry_wrapper {α : Type} (funcName : String) (maxRetries : ℕ)
    (delay backoff : ℚ) (jitterOn : Bool) (maxDelay : ℚ) (externalAttempt : ℕ)
    (jitters : ℕ → ℚ) (op : ℕ → Except String α) : RetryTrace α :=
  match retryGo op externalAttempt maxDelay jitterOn jitters 0 maxRetries with
  | (Option.some a, c, s) => ⟨.ok a, c, s⟩
  | (Option.none, c, s) =>
      ⟨.error ("❌ " ++ funcName ++ " failed after " ++ toString maxRetries
        ++ " retries."), c, s⟩

/-- A price-history row: date (days, time-ascending) and the chosen price
column's value. -/
structure Row where
  date : ℤ
  price : ℚ
deriving DecidableEq

/-- Embedding of `StockFetcher.fetch_history` (src/stocks/stock_fetcher.py,
lines 28-40), the body wrapped by `@retry`: `history p` is the provider frame
(list of rows) returned for period `p`; an empty `'max'` response is re-requested
once with `'20y'` within the same attempt, and an empty final frame raises
`ValueError`. -/
def fetch_history (history : String → List Row) (period : String) :
    Except String (List Row) :=
  let data := history period
  let data2 := if data = [] ∧ period = "max" then history "20y" else data
  if data2 = [] then .error "No historical data found for ticker." else .ok data2

/-- Dividend event: the calendar year of its date (the only index component
`calculate_dividend_frequency` reads) and the amount. -/
structure DivEvent where
  year : ℤ
  amount : ℚ
deriving DecidableEq

/-- Per-calendar-year event counts, `divs.groupby(divs.index.year).count()`:
one count for each distinct year present, in first-appearance order. -/
def divsPerYear (divs : List DivEvent) : List ℕ :=
  ((divs.map DivEvent.year).dedup).map
    (fun y => (divs.filter (fun d => d.year = y)).length)

/-- Embedding of `StockCalculator.calculate_dividend_frequency`
(src/stocks/stock_calculator.py, lines 58-73). -/
def calculate_dividend_frequency (divs : List DivEvent) : String :=
  if divs ≠ [] ∧ 2 ≤ divs.length then
    let counts := divsPerYear divs
    let avg : ℚ := (counts.sum : ℚ) / (counts.length : ℚ)
    if 11 ≤ avg then "Monthly"
    else if 7 / 2 ≤ avg then "Quarterly"
    else if 2 ≤ avg then "Semi-Annually"
    else if 1 ≤ avg then "Annually"
    else "Irregular"
  else "N/A"

/-- A pandas numeric cell; `Option.none` models float `NaN`. -/
abbrev PCell := Option ℚ

/-- Embedding of pandas `Series.dropna()` followed by reading the values. -/
def dropna (xs : List PCell) : List ℚ := xs.filterMap id

/-- Embedding of pandas `Series.pct_change()`: same length as the input, first
entry `NaN`, then day-over-day relative change; a `NaN` operand yields `NaN`.
(Prices are assumed nonzero: float division by zero, which yields `inf` in
pandas, is outside every claim considered here.) -/
def pct_change : List PCell → List PCell
  | [] => []
  | x :: xs =>
      Option.none :: ((x :: xs).zip xs).map (fun p =>
        match p.1, p.2 with
        | Option.some a, Option.some b => Option.some (b / a - 1)
        | _, _ => Option.none)

/-- Embedding of pandas `Series.mean()`: `NaN` on an empty series. -/
def seriesMean (xs : List ℚ) : Option ℚ :=
  if xs = [] then Option.none else Option.some (xs.sum / (xs.length : ℚ))

/-- Embedding of pandas `Series.std()` (sample standard deviation, `ddof=1`):
`NaN` for fewer than two values. -/
noncomputable def seriesStd (xs : List ℚ) : Option ℝ :=
  if xs.length < 2 then Option.none
  else Option.some (Real.sqrt
    ((xs.map (fun x => ((x : ℝ) - ((xs.sum / (xs.length : ℚ) : ℚ) : ℝ)) ^ 2)).sum /
      ((xs.length : ℝ) - 1)))

/-- Python `round(x, 2)`.  (Modelled as round-half-up; Python rounds half to
even, which differs only at exact half-cent ties, and no claim here evaluates
at such a tie.) -/
noncomputable def round2 (x : ℝ) : ℝ := ((round (x * 100) : ℤ) : ℝ) / 100

/-- Embedding of `StockCalculator.calculate_volatility`
(src/stocks/stock_calculator.py, lines 7-17): the input is the chosen price
column.  `Option.none` is a `NaN` result (which the source produces for a
series of exactly two points, where the single return's sample std is `NaN`). -/
noncomputable def calculate_volatility (prices : List PCell) : Option ℝ :=
  let price_series := dropna prices
  if price_series.length < 2 then Option.some 0
  else
    let returns := dropna (pct_change (price_series.map Option.some))
    if returns = [] then Option.some 0
    else (seriesStd returns).map (fun s => round2 (s * Real.sqrt 252 * 100))

open Classical in
/-- Embedding of `StockCalculator.calculate_sharpe_ratio`
(src/stocks/stock_calculator.py, lines 26-35).  Note the source guard is
`std_daily_return == 0`, which is false when the std is `NaN`, and every
arithmetic operation on `NaN` yields `NaN`. -/
noncomputable def calculate_sharpe_ratio (prices : List PCell)
    (riskFreeRate : ℚ) : Option ℝ :=
  let returns := dropna (pct_change prices)
  let avg := seriesMean returns
  let std := seriesStd returns
  if std = Option.some 0 then Option.some 0
  else
    match avg, std with
    | Option.some m, Option.some s =>
        Option.some (round2 (((m : ℝ) - (riskFreeRate : ℝ) / 252) / s * Real.sqrt 252))
    | _, _ => Option.none

/-- One horizon of `StockCalculator.calculate_historical_short_and_long_term_cagr`
(src/stocks/stock_calculator.py, lines 92-104): rows dated at or before
`today - 365 * years` select the start price (the last such row); the `**`
power is a real power. -/
noncomputable def horizonCagr (data : List Row) (today : ℤ) (years : ℕ) : Option ℝ :=
  let startDate := today - 365 * (years : ℤ)
  let historical := data.filter (fun r => r.date ≤ startDate)
  match historical.getLast?, data.getLast? with
  | Option.some s, Option.some e =>
      Option.some (round2 ((((e.price : ℝ) / (s.price : ℝ)) ^ ((1 : ℝ) / (years : ℝ)) - 1) * 100))
  | _, _ => Option.none

/-- The inner `combine` of the CAGR computation (src/stocks/stock_calculator.py,
lines 106-111): average of the horizons that produced a value, `None` when no
horizon did. -/
noncomputable def combineCagr (vals : List (Option ℝ)) : Option ℝ :=
  let values := vals.filterMap id
  if values.isEmpty then Option.none
  else Option.some (round2 (values.sum / (values.length : ℝ)))

/-- Embedding of `StockCalculator.calculate_historical_short_and_long_term_cagr`
(src/stocks/stock_calculator.py, lines 75-116): the pair is
`(shortTermCagr, longTermCagr)`. -/
noncomputable def calculate_historical_short_and_long_term_cagr
    (data : List Row) (today : ℤ) : Option ℝ × Option ℝ :=
  if data = [] then (Option.none, Option.none)
  else
    (combineCagr [horizonCagr data today 1, horizonCagr data today 2],
     combineCagr [horizonCagr data today 5, horizonCagr data today 10,
       horizonCagr data today 15, horizonCagr data today 20])

/-- Concrete sub-fetch outcome used by witnesses. -/
def exampleFetchedData : FetchedData :=
  ⟨fun _ => Option.none, .num 0, "N/A", false, .none, .none, 1⟩

/-- Environment in which every symbol's sub-fetches succeed. -/
def envAllOk : String → ℕ → Except PyExc FetchedData :=
  fun _ _ => .ok exampleFetchedData

/-- Environment in which every symbol's sub-fetches always fail. -/
def envAllFail : String → ℕ → Except PyExc FetchedData :=
  fun _ _ => .error (.base "boom")

/-- Environment in which symbol `A` always fails and all others succeed. -/
def envFailOnlyA : String → ℕ → Except PyExc FetchedData :=
  fun t _ => if t = "A" then .error (.base "boom") else .ok exampleFetchedData

/-- Concrete single-round fetch outcome with one failing symbol, for
witnesses about `export_ticker_data`. -/
def fetchMixed : String → Except PyExc TickerDict :=
  fun t => if t = "B" then .error (.wrap "outer" (.base "bad")) else .ok [("ticker", .str t)]

/-- Concrete fetch outcome failing with a three-deep cause chain. -/
def fetchChained : String → Except PyExc TickerDict :=
  fun _ => .error (.wrap "msgA" (.wrap "msgB" (.base "msgC")))

/-- Operation that fails on its first two calls and would succeed on the
third. -/
def opSucceedsThird : ℕ → Except String ℕ :=
  fun i => if i < 2 then .error ("e" ++ toString i) else .ok 42

/-- Operation that fails on every call. -/
def opAlwaysFail : ℕ → Except String ℕ := fun i => .error ("e" ++ toString i)

/-- Jitter draws used by the concrete retry runs. -/
def exampleJitters : ℕ → ℚ := fun i => if i = 0 then 1 / 2 else 1 / 10

/-- Provider history responses: empty for `'max'`, one row for `'20y'`. -/
def histEmptyMaxOk20y : String → List Row :=
  fun p => if p = "20y" then [⟨0, 1⟩] else []

/-- Provider history responses: empty for every period. -/
def histAlwaysEmpty : String → List Row := fun _ => []

/-- Whether a symbol's fetch fails. -/
def fetchFails (fetch : String → Except PyExc TickerDict) (t : String) : Bool :=
  match fetch t with
  | .ok _ => false
  | .error _ => true

theorem dictGet_dictSet_self {β : Type} (l : List (String × β)) (k : String) (v : β) :
    dictGet (dictSet l k v) k = Option.some v := by
  induction l with
  | nil => simp [dictSet, dictGet]
  | cons p t ih =>
      obtain ⟨k0, v0⟩ := p
      by_cases h : k0 = k <;> simp [dictSet, dictGet, h, ih]

theorem dictGet_dictSet_ne {β : Type} (l : List (String × β)) (k k' : String) (v : β)
    (h : k' ≠ k) : dictGet (dictSet l k v) k' = dictGet l k' := by
  have hk : k ≠ k' := fun hh => h hh.symm
  induction l with
  | nil => simp [dictSet, dictGet, hk]
  | cons p t ih =>
      obtain ⟨k0, v0⟩ := p
      by_cases h0 : k0 = k
      · subst h0
        simp [dictSet, dictGet, hk]
      · simp [dictSet, dictGet, h0, ih]

/-- When the key is fresh, Python dict assignment appends the binding. -/
theorem dictSet_of_fresh {β : Type} (l : List (String × β)) (k : String) (v : β)
    (h : ∀ p ∈ l, p.1 ≠ k) : dictSet l k v = l ++ [(k, v)] := by
  induction l with
  | nil => rfl
  | cons p t ih =>
      obtain ⟨k0, v0⟩ := p
      have hk0 : k0 ≠ k := h (k0, v0) (List.mem_cons_self _ _)
      simp only [dictSet, if_neg hk0, List.cons_append, List.cons.injEq, true_and]
      exact ih fun p hp => h p (List.mem_cons_of_mem _ hp)

theorem dictGet_append_fresh {β : Type} (l l' : List (String × β)) (k : String)
    (h : ∀ p ∈ l, p.1 ≠ k) : dictGet (l ++ l') k = dictGet l' k := by
  induction l with
  | nil => rfl
  | cons p t ih =>
      obtain ⟨k0, v0⟩ := p
      have hk0 : k0 ≠ k := h (k0, v0) (List.mem_cons_self _ _)
      simp only [List.cons_append, dictGet, if_neg hk0]
      exact ih fun p hp => h p (List.mem_cons_of_mem _ hp)

theorem exportTickerDataGo_spec (fetch : String → Except PyExc TickerDict)
    (tickers : List String) (acc : List TickerDict × List (String × String))
    (hnd : tickers.Nodup) (hdisj : ∀ t ∈ tickers, ∀ p ∈ acc.2, p.1 ≠ t) :
    exportTickerDataGo fetch tickers acc =
      (acc.1 ++ tickers.filterMap (fetchOk fetch),
       acc.2 ++ tickers.filterMap (fetchErr fetch)) := by
  induction tickers generalizing acc with
  | nil => simp [exportTickerDataGo]
  | cons t ts ih =>
      have hndt : ts.Nodup := hnd.of_cons
      have htnotin : t ∉ ts := (List.nodup_cons.mp hnd).1
      cases hf : fetch t with
      | ok d =>
          have := ih (acc.1 ++ [d], acc.2) hndt
            (fun s hs p hp => hdisj s (List.mem_cons_of_mem _ hs) p hp)
          simp only [exportTickerDataGo, hf, this, List.filterMap_cons,
            fetchOk, fetchErr, hf]
          simp [List.append_assoc]
      | error e =>
          have hset : dictSet acc.2 t (get_root_error_message e) =
              acc.2 ++ [(t, get_root_error_message e)] :=
            dictSet_of_fresh _ _ _ (fun p hp => hdisj t (List.mem_cons_self _ _) p hp)
          have hdisj' : ∀ s ∈ ts, ∀ p ∈ acc.2 ++ [(t, get_root_error_message e)], p.1 ≠ s := by
            intro s hs p hp
            rcases List.mem_append.mp hp with hp | hp
            · exact hdisj s (List.mem_cons_of_mem _ hs) p hp
            · simp only [List.mem_singleton] at hp
              subst hp
              intro hc
              have hts : t = s := hc
              rw [← hts] at hs
              exact htnotin hs
          have := ih (acc.1, acc.2 ++ [(t, get_root_error_message e)]) hndt hdisj'
          simp only [exportTickerDataGo, hf, hset, this, List.filterMap_cons,
            fetchOk, fetchErr, hf]
          simp [List.append_assoc]

/-- Characterization of `export_ticker_data` on a duplicate-free symbol list:
the successes are exactly the fetched records in submission order, and the
error map records exactly the failing symbols with their root-cause message. -/
theorem export_ticker_data_spec (fetch : String → Except PyExc TickerDict)
    (tickers : List String) (hnd : tickers.Nodup) :
    export_ticker_data fetch tickers =
      (tickers.filterMap (fetchOk fetch), tickers.filterMap (fetchErr fetch)) := by
  have := exportTickerDataGo_spec fetch tickers ([], []) hnd (by simp)
  simpa [export_ticker_data] using this

/-- C9: `fetch_history` called with the default period `'max'` never returns
an empty history; an empty `'max'` frame is re-requested with `'20y'` within
the same attempt, and `ValueError` is raised exactly when that result is also
empty, so every successfully fetched price series has at least one row. -/
theorem c9_fetch_history (history : String → List Row) :
    (∀ rows, fetch_history history "max" = .ok rows → rows ≠ []) ∧
    (fetch_history history "max" = .error "No historical data found for ticker."
      ↔ history "max" = [] ∧ history "20y" = []) ∧
    (history "max" = [] → history "20y" ≠ [] →
      fetch_history history "max" = .ok (history "20y")) := by
  unfold fetch_history
  by_cases hmax : history "max" = []
  · by_cases h20 : history "20y" = [] <;> simp [hmax, h20]
  · simp [hmax]

/-- Closed instance of the C9 theorem. -/
theorem c9_fetch_history_witness :
    fetch_history histEmptyMaxOk20y "max" = .ok (histEmptyMaxOk20y "20y") :=
  (c9_fetch_history histEmptyMaxOk20y).2.2 (by decide) (by decide)

theorem dedup_of_const {α : Type} [DecidableEq α] (l : List α) (y : α)
    (h : ∀ a ∈ l, a = y) (hne : l ≠ []) : l.dedup = [y] := by
  induction l with
  | nil => exact absurd rfl hne
  | cons a t ih =>
      have ha : a = y := h a (List.mem_cons_self _ _)
      subst ha
      cases t with
      | nil => rfl
      | cons b t' =>
          have hb : b = a := (h b (List.mem_cons_of_mem _ (List.mem_cons_self _ _))).trans
            (h a (List.mem_cons_self _ _)).symm
          have hmem : a ∈ b :: t' := by
            rw [hb]
            exact List.mem_cons_self _ _
          rw [List.dedup_cons_of_mem hmem]
          exact ih (fun x hx => h x (List.mem_cons_of_mem _ hx)) (by simp)

theorem divsPerYear_single_year (divs : List DivEvent) (y : ℤ)
    (h : ∀ d ∈ divs, d.year = y) (hne : divs ≠ []) :
    divsPerYear divs = [divs.length] := by
  unfold divsPerYear
  have hmap : ∀ a ∈ divs.map DivEvent.year, a = y := by
    intro a ha
    obtain ⟨d, hd, rfl⟩ := List.mem_map.mp ha
    exact h d hd
  have hmapne : divs.map DivEvent.year ≠ [] := by
    simpa using hne
  rw [dedup_of_const _ y hmap hmapne]
  have hfilter : divs.filter (fun d => decide (d.year = y)) = divs :=
    List.filter_eq_self.mpr (fun d hd => by simp [h d hd])
  simp [hfilter]

/-- C6: `calculate_dividend_frequency` returns `'N/A'` for fewer than 2
dividend events and otherwise classifies the mean dividend count per calendar
year by the thresholds Monthly ≥ 11, Quarterly ≥ 3.5, Semi-Annually ≥ 2,
Annually ≥ 1, else Irregular; 12 dividends within one calendar year give
`'Monthly'`, 4 give `'Quarterly'`, and one dividend per year across two
consecutive years gives `'Annually'`.  ("1 dividend across 1 year" is read as
an annual cadence sustained over at least two events, since a single event
falls under the <2 → `'N/A'` rule stated in the same claim.) -/
theorem c6_dividend_frequency :
    (∀ divs : List DivEvent, divs.length < 2 →
      calculate_dividend_frequency divs = "N/A") ∧
    (∀ divs : List DivEvent, 2 ≤ divs.length →
      calculate_dividend_frequency divs =
        (let avg : ℚ := ((divsPerYear divs).sum : ℚ) / ((divsPerYear divs).length : ℚ)
         if 11 ≤ avg then "Monthly"
         else if 7 / 2 ≤ avg then "Quarterly"
         else if 2 ≤ avg then "Semi-Annually"
         else if 1 ≤ avg then "Annually"
         else "Irregular")) ∧
    (∀ (y : ℤ) (divs : List DivEvent), (∀ d ∈ divs, d.year = y) →
      divs.length = 12 → calculate_dividend_frequency divs = "Monthly") ∧
    (∀ (y : ℤ) (divs : List DivEvent), (∀ d ∈ divs, d.year = y) →
      divs.length = 4 → calculate_dividend_frequency divs = "Quarterly") ∧
    (∀ (y : ℤ) (a1 a2 : ℚ),
      calculate_dividend_frequency [⟨y, a1⟩, ⟨y + 1, a2⟩] = "Annually") := by
  have hclass : ∀ divs : List DivEvent, 2 ≤ divs.length →
      calculate_dividend_frequency divs =
        (let avg : ℚ := ((divsPerYear divs).sum : ℚ) / ((divsPerYear divs).length : ℚ)
         if 11 ≤ avg then "Monthly"
         else if 7 / 2 ≤ avg then "Quarterly"
         else if 2 ≤ avg then "Semi-Annually"
         else if 1 ≤ avg then "Annually"
         else "Irregular") := by
    intro divs h2
    have hne : divs ≠ [] := by
      intro h
      rw [h] at h2
      exact absurd h2 (by decide)
    unfold calculate_dividend_frequency
    rw [if_pos ⟨hne, h2⟩]
  refine ⟨?_, hclass, ?_, ?_, ?_⟩
  · intro divs hlt
    unfold calculate_dividend_frequency
    rw [if_neg]
    rintro ⟨-, h2⟩
    omega
  · intro y divs hy h12
    have hne : divs ≠ [] := by
      intro h
      rw [h] at h12
      cases h12
    rw [hclass divs (by omega)]
    rw [divsPerYear_single_year divs y hy hne, h12]
    norm_num
  · intro y divs hy h4
    have hne : divs ≠ [] := by
      intro h
      rw [h] at h4
      cases h4
    rw [hclass divs (by omega)]
    rw [divsPerYear_single_year divs y hy hne, h4]
    norm_num
  · intro y a1 a2
    have hyy : y + 1 ≠ y := by omega
    have hdpy : divsPerYear [⟨y, a1⟩, ⟨y + 1, a2⟩] = [1, 1] := by
      unfold divsPerYear
      simp only [List.map_cons, List.map_nil]
      rw [List.dedup_cons_of_not_mem (by simp [hyy.symm, (by omega : y ≠ y + 1)])]
      simp [List.filter, hyy, (by omega : ¬ y = y + 1), (by omega : ¬ y + 1 = y)]
    rw [hclass [⟨y, a1⟩, ⟨y + 1, a2⟩] (by simp)]
    rw [hdpy]
    norm_num

/-- Closed instance of the C6 theorem. -/
theorem c6_dividend_frequency_witness :
    calculate_dividend_frequency [] = "N/A" ∧
    calculate_dividend_frequency (List.replicate 12 ⟨2023, 1⟩) = "Monthly" ∧
    calculate_dividend_frequency (List.replicate 4 ⟨2023, 1⟩) = "Quarterly" ∧
    calculate_dividend_frequency [⟨2020, 1⟩, ⟨2020 + 1, 1⟩] = "Annually" :=
  ⟨c6_dividend_frequency.1 [] (by decide),
   c6_dividend_frequency.2.2.1 2023 _ (by decide) (by decide),
   c6_dividend_frequency.2.2.2.1 2023 _ (by decide) (by decide),
   c6_dividend_frequency.2.2.2.2 2020 1 1⟩

/-- C8 counterexample: with the explicit worker parameter `max_workers = 10`
(so `min_workers = 10 ≤ max_workers`), round 0 applies the decay factor
`0.8 ** (0 - 1) = 1.25` and runs `int(10 * 1.25) = 12` workers, exceeding
`max_workers`; the claimed bound `current_workers ≤ max_workers` is false. -/
theorem c8_counterexample :
    current_workers 10 0 = 12 ∧ ¬ current_workers 10 0 ≤ 10 := by
  constructor
  · norm_num [current_workers]
  · norm_num [current_workers]

/-- C8 amended: the worker count of round `a` is
`max(int(max_workers * 0.8 ** (a - 1)), 10)`.  It always respects the floor
`min_workers = 10` and is non-increasing from round to round, but it is capped
by `max_workers` only from round 1 on; round 0 uses factor `0.8 ** (-1) = 1.25`
and may exceed `max_workers` (see the counterexample). -/
theorem c8_worker_schedule_amended (maxW a : ℕ) :
    10 ≤ current_workers maxW a ∧
    current_workers maxW (a + 1) ≤ current_workers maxW a ∧
    (1 ≤ a → current_workers maxW a ≤ max (maxW : ℤ) 10) := by
  refine ⟨le_max_right _ _, ?_, ?_⟩
  · have hpow : ((4 : ℚ) / 5) ^ (a + 1) ≤ (4 / 5) ^ a :=
      pow_le_pow_of_le_one (by norm_num) (by norm_num) (Nat.le_succ a)
    have hmul : (maxW : ℚ) * ((4 / 5 : ℚ) ^ (a + 1) * (5 / 4)) ≤
        (maxW : ℚ) * ((4 / 5 : ℚ) ^ a * (5 / 4)) := by
      apply mul_le_mul_of_nonneg_left _ (by positivity)
      exact mul_le_mul_of_nonneg_right hpow (by norm_num)
    exact max_le_max (Int.floor_le_floor hmul) le_rfl
  · intro ha
    have hpow : ((4 : ℚ) / 5) ^ a ≤ (4 : ℚ) / 5 := by
      calc ((4 : ℚ) / 5) ^ a ≤ ((4 : ℚ) / 5) ^ 1 :=
            pow_le_pow_of_le_one (by norm_num) (by norm_num) ha
        _ = (4 : ℚ) / 5 := pow_one _
    have hfac : ((4 : ℚ) / 5) ^ a * (5 / 4) ≤ 1 := by
      calc ((4 : ℚ) / 5) ^ a * (5 / 4) ≤ (4 / 5) * (5 / 4) :=
            mul_le_mul_of_nonneg_right hpow (by norm_num)
        _ = 1 := by norm_num
    have hmul : (maxW : ℚ) * ((4 / 5 : ℚ) ^ a * (5 / 4)) ≤ (maxW : ℚ) := by
      calc (maxW : ℚ) * ((4 / 5 : ℚ) ^ a * (5 / 4)) ≤ (maxW : ℚ) * 1 :=
            mul_le_mul_of_nonneg_left hfac (by positivity)
        _ = (maxW : ℚ) := mul_one _
    have hfl : ⌊(maxW : ℚ) * ((4 / 5 : ℚ) ^ a * (5 / 4))⌋ ≤ (maxW : ℤ) := by
      have := Int.floor_le_floor hmul
      simpa using this
    exact max_le_max hfl le_rfl

/-- Closed instance of the C8 amended theorem. -/
theorem c8_worker_schedule_amended_witness :
    10 ≤ current_workers 20 1 ∧
    current_workers 20 2 ≤ current_workers 20 1 ∧
    current_workers 20 1 ≤ max (20 : ℤ) 10 :=
  ⟨(c8_worker_schedule_amended 20 1).1, (c8_worker_schedule_amended 20 1).2.1,
   (c8_worker_schedule_amended 20 1).2.2 (by decide)⟩

theorem dictSet_forall {β : Type} (Q : β → Prop) (l : List (String × β))
    (k : String) (v : β) (hl : ∀ p ∈ l, Q p.2) (hv : Q v) :
    ∀ p ∈ dictSet l k v, Q p.2 := by
  induction l with
  | nil =>
      intro p hp
      simp only [dictSet, List.mem_singleton] at hp
      subst hp
      exact hv
  | cons q t ih =>
      obtain ⟨k0, v0⟩ := q
      intro p hp
      by_cases h0 : k0 = k
      · simp only [dictSet, if_pos h0, List.mem_cons] at hp
        rcases hp with hp | hp
        · subst hp
          exact hv
        · exact hl p (List.mem_cons_of_mem _ hp)
      · simp only [dictSet, if_neg h0, List.mem_cons] at hp
        rcases hp with hp | hp
        · subst hp
          exact hl (k0, v0) (List.mem_cons_self _ _)
        · exact ih (fun r hr => hl r (List.mem_cons_of_mem _ hr)) p hp

/-- The result dict built by `fetch_ticker` carries no `"error"` key. -/
theorem buildTickerRecord_no_error (t : String) (d : FetchedData) :
    dictGet (buildTickerRecord t d) "error" = Option.none := by
  have herr : ∀ (l : TickerDict) (k : String) (v : PyVal), k ≠ "error" →
      dictGet (dictSet l k v) "error" = dictGet l "error" :=
    fun l k v hk => dictGet_dictSet_ne l k "error" v (fun hh => hk hh.symm)
  simp only [buildTickerRecord]
  split
  · rw [herr _ "sector" _ (by decide), herr _ "industry" _ (by decide),
      herr _ "marketCap" _ (by decide), herr _ "longTermCagr" _ (by decide),
      herr _ "shortTermCagr" _ (by decide)]
    simp [dictGet]
  · split
    · rw [herr _ "sector" _ (by decide), herr _ "industry" _ (by decide),
        herr _ "marketCap" _ (by decide), herr _ "longTermCagr" _ (by decide),
        herr _ "shortTermCagr" _ (by decide)]
      simp [dictGet]
    · rw [herr _ "marketCap" _ (by decide), herr _ "longTermCagr" _ (by decide),
        herr _ "shortTermCagr" _ (by decide)]
      simp [dictGet]

theorem runRound_ok_no_error (env : String → ℕ → Except PyExc FetchedData)
    (attempt : ℕ) (remaining : List String) :
    ∀ (results : List (String × TickerDict)),
    (∀ p ∈ results, dictGet p.2 "error" = Option.none) →
    ∀ results2, runRound (fetch_ticker env) attempt remaining results = .ok results2 →
    ∀ p ∈ results2, dictGet p.2 "error" = Option.none := by
  induction remaining with
  | nil =>
      intro results h results2 heq
      simp only [runRound, Except.ok.injEq] at heq
      subst heq
      exact h
  | cons t ts ih =>
      intro results h results2 heq
      cases henv : env t attempt with
      | ok d =>
          have hft : fetch_ticker env t attempt = .ok (buildTickerRecord t d) := by
            simp [fetch_ticker, henv]
          simp only [runRound, hft] at heq
          exact ih (dictSet results t (buildTickerRecord t d))
            (dictSet_forall (fun v => dictGet v "error" = Option.none) results t
              (buildTickerRecord t d) h (buildTickerRecord_no_error t d)) results2 heq
      | error e =>
          have hft : fetch_ticker env t attempt =
              .error (.wrap ("Failed to fetch " ++ t ++ ": " ++ e.msg) e) := by
            simp [fetch_ticker, henv]
          simp only [runRound, hft] at heq
          cases heq

theorem exportTickerLoop_rounds (env : String → ℕ → Except PyExc FetchedData) :
    ∀ (fuel attempt : ℕ) (remaining : List String)
      (results : List (String × TickerDict)),
    (∀ p ∈ results, dictGet p.2 "error" = Option.none) →
    ∀ res n, exportTickerLoop (fetch_ticker env) attempt fuel remaining results
      = .ok (res, n) → n ≤ 1 := by
  intro fuel
  cases fuel with
  | zero =>
      intro attempt remaining results h res n heq
      simp only [exportTickerLoop, Except.ok.injEq, Prod.mk.injEq] at heq
      omega
  | succ f =>
      intro attempt remaining results h res n heq
      cases hr : runRound (fetch_ticker env) attempt remaining results with
      | error e =>
          simp only [exportTickerLoop, hr] at heq
          cases heq
      | ok results2 =>
          have h2 : ∀ p ∈ results2, dictGet p.2 "error" = Option.none :=
            runRound_ok_no_error env attempt remaining results h results2 hr
          have hfilter : results2.filter
              (fun p => dictGet p.2 "error" ≠ Option.none) = [] := by
            apply List.filter_eq_nil_iff.mpr
            intro p hp
            simp [h2 p hp]
          simp only [exportTickerLoop, hr, hfilter, List.map_nil,
            List.isEmpty_nil, if_true, Except.ok.injEq, Prod.mk.injEq] at heq
          omega

/-- C10: the failure-detection predicate of `export_ticker`
(`r.get("error", None) is not None`) is false for every dict `fetch_ticker`
can return — no built record has an `"error"` key — and therefore the set
re-submitted after a fully completed round is empty and a second retry round
is never executed (a failing fetch instead raises out of the round). -/
theorem c10_no_second_round :
    (∀ (t : String) (d : FetchedData),
      dictGet (buildTickerRecord t d) "error" = Option.none) ∧
    (∀ (env : String → ℕ → Except PyExc FetchedData) (tickers : List String)
      (maxGlobalRetries : ℕ) (res : List (String × TickerDict)) (n : ℕ),
      export_ticker (fetch_ticker env) tickers maxGlobalRetries = .ok (res, n) →
      n ≤ 1) := by
  refine ⟨buildTickerRecord_no_error, ?_⟩
  intro env tickers maxGlobalRetries res n heq
  exact exportTickerLoop_rounds env maxGlobalRetries 0 tickers.dedup []
    (by intro p hp; cases hp) res n heq

/-- Closed instance of the C10 theorem. -/
theorem c10_no_second_round_witness :
    dictGet (buildTickerRecord "A" exampleFetchedData) "error" = Option.none ∧
    (1 : ℕ) ≤ 1 :=
  ⟨c10_no_second_round.1 "A" exampleFetchedData,
   c10_no_second_round.2 envAllOk ["A"] 5
     [("A", buildTickerRecord "A" exampleFetchedData)] 1 (by rfl)⟩

/-- C1 counterexample: in `export_all.py`'s `export_ticker`, a single-symbol
batch (`N = 1`, `K = 1`) whose fetch always fails produces no BatchResult at
all: the wrapped exception escapes the runner, instead of a one-entry result
mapping the symbol to an error message. -/
theorem c1_counterexample :
    export_ticker (fetch_ticker envAllFail) ["A"] 5 =
      .error (.wrap "Failed to fetch A: boom" (.base "boom")) := by rfl

/-- C2 counterexample: in `export_all.py`'s `export_ticker`, symbol `A`'s
fetch exception escapes the batch runner as an unhandled failure (the round's
result collection is aborted, so sibling `B`'s outcome is discarded with it). -/
theorem c2_counterexample :
    export_ticker (fetch_ticker envFailOnlyA) ["A", "B"] 5 =
      .error (.wrap "Failed to fetch A: boom" (.base "boom")) := by rfl

theorem length_ok_add_err (fetch : String → Except PyExc TickerDict)
    (l : List String) :
    (l.filterMap (fetchOk fetch)).length + (l.filterMap (fetchErr fetch)).length
      = l.length := by
  induction l with
  | nil => rfl
  | cons t ts ih =>
      cases hf : fetch t <;>
        simp only [List.filterMap_cons, fetchOk, fetchErr, hf, List.length_cons] <;>
        omega

theorem map_fst_err (fetch : String → Except PyExc TickerDict) (l : List String) :
    (l.filterMap (fetchErr fetch)).map Prod.fst = l.filter (fetchFails fetch) := by
  induction l with
  | nil => rfl
  | cons t ts ih =>
      cases hf : fetch t <;>
        simp [List.filterMap_cons, List.filter_cons, fetchErr, fetchFails, hf, ih]

theorem dictGet_filterMap_err (fetch : String → Except PyExc TickerDict) :
    ∀ (l : List String), l.Nodup → ∀ t ∈ l, ∀ e, fetch t = .error e →
      dictGet (l.filterMap (fetchErr fetch)) t
        = Option.some (get_root_error_message e) := by
  intro l
  induction l with
  | nil =>
      intro _ t ht
      cases ht
  | cons s ls ih =>
      intro hnd t ht e hf
      have hnotin : s ∉ ls := (List.nodup_cons.mp hnd).1
      rcases List.mem_cons.mp ht with rfl | hts
      · simp [List.filterMap_cons, fetchErr, hf, dictGet]
      · have hst : s ≠ t := fun h => hnotin (h ▸ hts)
        cases hfs : fetch s with
        | ok d =>
            simp only [List.filterMap_cons, fetchErr, hfs]
            exact ih hnd.of_cons t hts e hf
        | error e2 =>
            simp only [List.filterMap_cons, fetchErr, hfs, dictGet, if_neg hst]
            exact ih hnd.of_cons t hts e hf

/-- C1 amended: the claimed batch-result shape holds for the single-round
runner `export_ticker_data` (src/stocks/export_all_stocks.py): on N distinct
symbols the run yields exactly N entries — the failing symbols exactly once
each, mapped to the root-cause message of their exception (non-empty whenever
the root message is), and the succeeding symbols exactly once each with their
fetched record.  In `export_all.py`'s `export_ticker` it holds only when no
symbol fails: any fetch exception escapes before a final BatchResult exists
(see the counterexample). -/
theorem c1_batch_entries_amended (fetch : String → Except PyExc TickerDict)
    (tickers : List String) (hnd : tickers.Nodup) :
    (export_ticker_data fetch tickers).1.length
        + (export_ticker_data fetch tickers).2.length = tickers.length ∧
    (export_ticker_data fetch tickers).1 = tickers.filterMap (fetchOk fetch) ∧
    (export_ticker_data fetch tickers).2.map Prod.fst
        = tickers.filter (fetchFails fetch) ∧
    (∀ t ∈ tickers, ∀ e, fetch t = .error e →
      dictGet (export_ticker_data fetch tickers).2 t
        = Option.some (get_root_error_message e)) ∧
    ((∀ t e, fetch t = .error e → get_root_error_message e ≠ "") →
      ∀ p ∈ (export_ticker_data fetch tickers).2, p.2 ≠ "") := by
  simp only [export_ticker_data_spec fetch tickers hnd]
  refine ⟨length_ok_add_err fetch tickers, trivial, map_fst_err fetch tickers, ?_, ?_⟩
  · intro t ht e hf
    exact dictGet_filterMap_err fetch tickers hnd t ht e hf
  · intro hne p hp
    obtain ⟨t, ht, hsome⟩ := List.mem_filterMap.mp hp
    cases hfx : fetch t with
    | ok d =>
        unfold fetchErr at hsome
        rw [hfx] at hsome
        cases hsome
    | error e =>
        unfold fetchErr at hsome
        rw [hfx] at hsome
        cases hsome
        exact hne t e hfx

/-- Closed instance of the C1 amended theorem. -/
theorem c1_batch_entries_amended_witness :
    (export_ticker_data fetchMixed ["A", "B"]).1.length
        + (export_ticker_data fetchMixed ["A", "B"]).2.length = 2 ∧
    dictGet (export_ticker_data fetchMixed ["A", "B"]).2 "B" = Option.some "bad" :=
  ⟨(c1_batch_entries_amended fetchMixed ["A", "B"] (by decide)).1,
   (c1_batch_entries_amended fetchMixed ["A", "B"] (by decide)).2.2.2.1 "B"
     (by decide) (.wrap "outer" (.base "bad")) rfl⟩

/-- C2 amended: in `export_ticker_data` an exception from one symbol's fetch
is captured at the symbol-fetch boundary and recorded as that symbol's error
entry, and each sibling's outcome is still present, determined solely by its
own fetch; in `export_all.py`'s `export_ticker` the exception instead escapes
the runner (see the counterexample). -/
theorem c2_error_capture_amended (fetch : String → Except PyExc TickerDict)
    (tickers : List String) (hnd : tickers.Nodup) (t : String) (ht : t ∈ tickers)
    (e : PyExc) (hf : fetch t = .error e) :
    dictGet (export_ticker_data fetch tickers).2 t
      = Option.some (get_root_error_message e) ∧
    (∀ s ∈ tickers, s ≠ t → ∀ r, fetch s = .ok r →
      r ∈ (export_ticker_data fetch tickers).1) ∧
    (∀ s ∈ tickers, s ≠ t → ∀ e2, fetch s = .error e2 →
      dictGet (export_ticker_data fetch tickers).2 s
        = Option.some (get_root_error_message e2)) := by
  simp only [export_ticker_data_spec fetch tickers hnd]
  refine ⟨dictGet_filterMap_err fetch tickers hnd t ht e hf, ?_, ?_⟩
  · intro s hs _ r hr
    exact List.mem_filterMap.mpr ⟨s, hs, by simp [fetchOk, hr]⟩
  · intro s hs _ e2 hf2
    exact dictGet_filterMap_err fetch tickers hnd s hs e2 hf2

/-- Closed instance of the C2 amended theorem. -/
theorem c2_error_capture_amended_witness :
    dictGet (export_ticker_data fetchMixed ["A", "B"]).2 "B" = Option.some "bad" ∧
    [("ticker", PyVal.str "A")] ∈ (export_ticker_data fetchMixed ["A", "B"]).1 :=
  ⟨(c2_error_capture_amended fetchMixed ["A", "B"] (by decide) "B" (by decide)
      (.wrap "outer" (.base "bad")) rfl).1,
   (c2_error_capture_amended fetchMixed ["A", "B"] (by decide) "B" (by decide)
      (.wrap "outer" (.base "bad")) rfl).2.1 "A" (by decide) (by decide)
      [("ticker", PyVal.str "A")] rfl⟩

/-- C7: for a symbol whose fetch fails with a chained exception
A caused-by B caused-by C, the batch runner `export_ticker_data` records as
that symbol's error message the message of the deepest cause C, obtained by
walking the cause chain to its origin. -/
theorem c7_root_cause (fetch : String → Except PyExc TickerDict)
    (tickers : List String) (hnd : tickers.Nodup) (t : String) (ht : t ∈ tickers)
    (mA mB mC : String)
    (hf : fetch t = .error (.wrap mA (.wrap mB (.base mC)))) :
    get_root_error_message (.wrap mA (.wrap mB (.base mC))) = mC ∧
    dictGet (export_ticker_data fetch tickers).2 t = Option.some mC := by
  refine ⟨rfl, ?_⟩
  have h := dictGet_filterMap_err fetch tickers hnd t ht _ hf
  simp only [export_ticker_data_spec fetch tickers hnd]
  exact h

/-- Closed instance of the C7 theorem. -/
theorem c7_root_cause_witness :
    get_root_error_message (.wrap "msgA" (.wrap "msgB" (.base "msgC"))) = "msgC" ∧
    dictGet (export_ticker_data fetchChained ["X"]).2 "X" = Option.some "msgC" :=
  c7_root_cause fetchChained ["X"] (by decide) "X" (by decide) "msgA" "msgB" "msgC" rfl

theorem retryGo_all_fail {α : Type} (op : ℕ → Except String α) (ea : ℕ)
    (maxD : ℚ) (jOn : Bool) (jit : ℕ → ℚ) :
    ∀ (fuel i : ℕ), (∀ j, j < fuel → ∃ s, op (i + j) = .error s) →
    retryGo op ea maxD jOn jit i fuel =
      (Option.none, fuel,
        (List.range fuel).map (fun j => curr_delay ea maxD jOn (jit (i + j)))) := by
  intro fuel
  induction fuel with
  | zero =>
      intro i h
      simp [retryGo]
  | succ f ih =>
      intro i h
      obtain ⟨s, hs⟩ := h 0 (Nat.succ_pos f)
      have hs0 : op i = .error s := by simpa using hs
      have hrec := ih (i + 1) (fun j hj => by
        have h2 := h (j + 1) (by omega)
        simpa [show i + (j + 1) = i + 1 + j by omega] using h2)
      simp only [retryGo, hs0, hrec, List.range_succ_eq_map, List.map_cons,
        List.map_map, Prod.mk.injEq, Nat.add_zero, true_and, List.cons.injEq]
      exact List.map_congr_left (fun j hj => by
        have : i + 1 + j = i + (j + 1) := by omega
        simp [Function.comp, this])

theorem retryGo_succeeds {α : Type} (op : ℕ → Except String α) (ea : ℕ)
    (maxD : ℚ) (jOn : Bool) (jit : ℕ → ℚ) :
    ∀ (k fuel i : ℕ) (a : α), k < fuel →
    (∀ j, j < k → ∃ s, op (i + j) = .error s) → op (i + k) = .ok a →
    retryGo op ea maxD jOn jit i fuel =
      (Option.some a, k + 1,
        (List.range k).map (fun j => curr_delay ea maxD jOn (jit (i + j)))) := by
  intro k
  induction k with
  | zero =>
      intro fuel i a hk hfail hok
      cases fuel with
      | zero => omega
      | succ f =>
          have hok0 : op i = .ok a := by simpa using hok
          simp [retryGo, hok0]
  | succ k ih =>
      intro fuel i a hk hfail hok
      cases fuel with
      | zero => omega
      | succ f =>
          obtain ⟨s, hs⟩ := hfail 0 (Nat.succ_pos k)
          have hs0 : op i = .error s := by simpa using hs
          have hrec := ih f (i + 1) a (by omega)
            (fun j hj => by
              have h2 := hfail (j + 1) (by omega)
              simpa [show i + (j + 1) = i + 1 + j by omega] using h2)
            (by simpa [show i + (k + 1) = i + 1 + k by omega] using hok)
          simp only [retryGo, hs0, hrec, List.range_succ_eq_map, List.map_cons,
            List.map_map, Prod.mk.injEq, Nat.add_zero, true_and, List.cons.injEq]
          exact List.map_congr_left (fun j hj => by
            have : i + 1 + j = i + (j + 1) := by omega
            simp [Function.comp, this])

/-- C3 counterexample: with `max_retries = 2` and an operation that fails on
its first two calls and would succeed on the third, the wrapper does not
retry `max_retries` more times and return the success — it invokes the
operation exactly twice and raises `RuntimeError("❌ func failed after 2
retries.")`, a message that does not wrap the last underlying failure's
message (`"e1"`). -/
theorem c3_counterexample :
    (retry_wrapper "func" 2 2 2 true 60 0 exampleJitters opSucceedsThird).outcome
        = .error "❌ func failed after 2 retries." ∧
    (retry_wrapper "func" 2 2 2 true 60 0 exampleJitters opSucceedsThird).calls = 2 ∧
    opSucceedsThird 2 = .ok 42 ∧
    ∀ a : ℕ, (retry_wrapper "func" 2 2 2 true 60 0 exampleJitters
      opSucceedsThird).outcome ≠ .ok a := by
  refine ⟨rfl, rfl, rfl, fun a h => ?_⟩
  rw [show (retry_wrapper "func" 2 2 2 true 60 0 exampleJitters
    opSucceedsThird).outcome = .error "❌ func failed after 2 retries." from rfl] at h
  simp at h

/-- C3 amended: the wrapper invokes the operation at most `max_retries` times
in total.  An operation failing on its first `k` calls with `k < max_retries`
and succeeding on the next call returns that success after `k + 1`
invocations; an operation failing on its first `max_retries` calls is invoked
exactly `max_retries` times — never more — and then `RuntimeError("❌ <func>
failed after <max_retries> retries.")` is raised, which names the function
and the retry budget but does not include the underlying failure's message. -/
theorem c3_retry_amended {α : Type} (op : ℕ → Except String α)
    (funcName : String) (maxRetries : ℕ) (delay backoff : ℚ) (jOn : Bool)
    (maxD : ℚ) (ea : ℕ) (jit : ℕ → ℚ) :
    (∀ (k : ℕ) (a : α), k < maxRetries → (∀ j, j < k → ∃ s, op j = .error s) →
      op k = .ok a →
      (retry_wrapper funcName maxRetries delay backoff jOn maxD ea jit op).outcome
          = .ok a ∧
      (retry_wrapper funcName maxRetries delay backoff jOn maxD ea jit op).calls
          = k + 1) ∧
    ((∀ j, j < maxRetries → ∃ s, op j = .error s) →
      (retry_wrapper funcName maxRetries delay backoff jOn maxD ea jit op).outcome
          = .error ("❌ " ++ funcName ++ " failed after " ++ toString maxRetries
              ++ " retries.") ∧
      (retry_wrapper funcName maxRetries delay backoff jOn maxD ea jit op).calls
          = maxRetries) := by
  constructor
  · intro k a hk hfail hok
    have h := retryGo_succeeds op ea maxD jOn jit k maxRetries 0 a hk
      (fun j hj => by simpa using hfail j hj) (by simpa using hok)
    simp [retry_wrapper, h]
  · intro hfail
    have h := retryGo_all_fail op ea maxD jOn jit maxRetries 0
      (fun j hj => by simpa using hfail j hj)
    simp [retry_wrapper, h]

/-- Closed instance of the C3 amended theorem. -/
theorem c3_retry_amended_witness :
    (retry_wrapper "func" 5 2 2 true 60 0 exampleJitters opSucceedsThird).outcome
        = .ok 42 ∧
    (retry_wrapper "func" 5 2 2 true 60 0 exampleJitters opSucceedsThird).calls
        = 3 :=
  (c3_retry_amended opSucceedsThird "func" 5 2 2 true 60 0 exampleJitters).1
    2 42 (by omega) (fun j hj => ⟨"e" ++ toString j, by simp [opSucceedsThird, hj]⟩)
    rfl

/-- C4 counterexample: within one wrapped call the successive sleep durations
do not grow with the attempt count — for external attempt 0 the two sleeps of
a twice-failing call are `0.5` then `0.1` (jitter draws within the allowed
`[0.1, 0.5]` range), a strict decrease; and neither equals the claimed
`base delay × exponential backoff factor` (the configured base delay 2 and
backoff 2 are unused). -/
theorem c4_counterexample :
    (retry_wrapper "func" 2 2 2 true 60 0 exampleJitters opAlwaysFail).sleeps
        = [1 / 2, 1 / 10] ∧
    ¬ ((1 : ℚ) / 2 < 1 / 10) := by
  constructor
  · simp only [retry_wrapper, retryGo, opAlwaysFail, curr_delay, exampleJitters]
    norm_num
  · norm_num

/-- C4 amended: on each failed attempt the wrapper sleeps
`min(⌊0.9 · a · (a + 1) / 2⌋, max_delay) + jitter`, where `a` is the
*external* attempt number passed via `kwargs` — a quadratic, not exponential,
schedule that ignores the configured base delay and backoff factor; within
one wrapped call the delay is the same for every internal retry, differing
only by the jitter draw, so successive sleep durations do not grow with the
internal attempt count. -/
theorem c4_delay_amended {α : Type} (op : ℕ → Except String α)
    (funcName : String) (maxRetries : ℕ) (delay backoff maxD : ℚ) (ea : ℕ)
    (jit : ℕ → ℚ) :
    ((∀ j, j < maxRetries → ∃ s, op j = .error s) →
      (retry_wrapper funcName maxRetries delay backoff true maxD ea jit op).sleeps
        = (List.range maxRetries).map (fun i =>
            min ((⌊(9 / 10 : ℚ) * (ea * (ea + 1)) / 2⌋ : ℤ) : ℚ) maxD + jit i)) ∧
    (∀ i j : ℕ, curr_delay ea maxD true (jit i) - curr_delay ea maxD true (jit j)
        = jit i - jit j) := by
  constructor
  · intro hfail
    have h := retryGo_all_fail op ea maxD true jit maxRetries 0
      (fun j hj => by simpa using hfail j hj)
    simp only [retry_wrapper, h]
    exact List.map_congr_left (fun j hj => by simp [curr_delay])
  · intro i j
    simp only [curr_delay, if_true]
    ring

/-- Closed instance of the C4 amended theorem. -/
theorem c4_delay_amended_witness :
    (retry_wrapper "func" 2 2 2 true 60 0 exampleJitters opAlwaysFail).sleeps
        = (List.range 2).map (fun i =>
            min ((⌊(9 / 10 : ℚ) * ((0 : ℕ) * ((0 : ℕ) + 1)) / 2⌋ : ℤ) : ℚ) 60
              + exampleJitters i) ∧
    curr_delay 0 60 true (exampleJitters 0) - curr_delay 0 60 true (exampleJitters 1)
        = exampleJitters 0 - exampleJitters 1 :=
  ⟨(c4_delay_amended opAlwaysFail "func" 2 2 2 60 0 exampleJitters).1
     (fun j hj => ⟨"e" ++ toString j, rfl⟩),
   (c4_delay_amended opAlwaysFail "func" 2 2 2 60 0 exampleJitters).2 0 1⟩

theorem horizonCagr_single_old (p : ℚ) (hp : p ≠ 0) (d today : ℤ) (y : ℕ)
    (hle : d ≤ today - 365 * (y : ℤ)) :
    horizonCagr [⟨d, p⟩] today y = Option.some (round2 ((((1 : ℝ)) ^ ((1 : ℝ) / (y : ℝ)) - 1) * 100)) := by
  unfold horizonCagr
  have hfil : List.filter (fun r => decide (r.date ≤ today - 365 * (y : ℤ)))
      [(⟨d, p⟩ : Row)] = [⟨d, p⟩] := by
    simp [hle]
  have hpr : ((p : ℝ) / (p : ℝ)) = 1 := by
    rw [div_self]
    exact_mod_cast hp
  simp [hfil, hpr]

/-- C5 counterexample: on the one-point price series `[5]` the Sharpe ratio
is `NaN` (modelled `Option.none`), not the claimed `0.0` — the guard
`std_daily_return == 0` is false on `NaN` — so a metric yields a value
outside `{0.0, None, 'N/A'}`; and on a one-point series whose single row is
dated at least one horizon before `today` the CAGR group results are `0.0`,
not the claimed `None`. -/
theorem c5_counterexample :
    calculate_sharpe_ratio [Option.some 5] (1 / 100) = Option.none ∧
    calculate_sharpe_ratio [Option.some 5] (1 / 100) ≠ Option.some 0 ∧
    calculate_historical_short_and_long_term_cagr [⟨0, 5⟩] 7300
        = (Option.some 0, Option.some 0) := by
  have hsharpe : calculate_sharpe_ratio [Option.some 5] (1 / 100) = Option.none := by
    simp [calculate_sharpe_ratio, pct_change, dropna, seriesMean, seriesStd]
  refine ⟨hsharpe, by rw [hsharpe]; simp, ?_⟩
  have hz : ∀ y : ℕ, 1 ≤ y → (0 : ℤ) ≤ 7300 - 365 * (y : ℤ) →
      horizonCagr [⟨0, 5⟩] 7300 y = Option.some 0 := by
    intro y hy1 hle
    rw [horizonCagr_single_old 5 (by norm_num) 0 7300 y (by omega)]
    rw [Real.one_rpow]
    norm_num [round2]
  have h1 := hz 1 (by norm_num) (by norm_num)
  have h2 := hz 2 (by norm_num) (by norm_num)
  have h5 := hz 5 (by norm_num) (by norm_num)
  have h10 := hz 10 (by norm_num) (by norm_num)
  have h15 := hz 15 (by norm_num) (by norm_num)
  have h20 := hz 20 (by norm_num) (by norm_num)
  simp [calculate_historical_short_and_long_term_cagr, h1, h2, h5, h10, h15, h20,
    combineCagr, round2]

/-- C5 amended: for price series with fewer than 2 data points, volatility
returns `0.0`, but the Sharpe ratio returns `NaN` (`Option.none`), not `0.0`
(its `std == 0` guard does not fire on `NaN`); the CAGR group results are
`None` when the series is empty, and for a one-point series they are `None`
exactly when the point is more recent than every horizon start — a point at
or before a horizon start yields `0.0` for that group (see the
counterexample). -/
theorem c5_neutral_values_amended :
    (∀ prices : List PCell, (dropna prices).length < 2 →
      calculate_volatility prices = Option.some 0) ∧
    (∀ (prices : List PCell) (rf : ℚ), prices.length < 2 →
      calculate_sharpe_ratio prices rf = Option.none) ∧
    (∀ today : ℤ,
      calculate_historical_short_and_long_term_cagr [] today
        = (Option.none, Option.none)) ∧
    (∀ (r : Row) (today : ℤ), today - 365 < r.date →
      calculate_historical_short_and_long_term_cagr [r] today
        = (Option.none, Option.none)) := by
  refine ⟨?_, ?_, ?_, ?_⟩
  · intro prices h
    simp only [calculate_volatility]
    rw [if_pos h]
  · intro prices rf h
    cases prices with
    | nil => simp [calculate_sharpe_ratio, pct_change, dropna, seriesMean, seriesStd]
    | cons x xs =>
        cases xs with
        | nil =>
            simp [calculate_sharpe_ratio, pct_change, dropna, seriesMean, seriesStd]
        | cons y ys =>
            exfalso
            simp only [List.length_cons] at h
            omega
  · intro today
    simp [calculate_historical_short_and_long_term_cagr]
  · intro r today h
    have hy : ∀ y : ℕ, 1 ≤ y → ¬ (r.date ≤ today - 365 * (y : ℤ)) := by
      intro y hy1 hle
      have hyz : (1 : ℤ) ≤ (y : ℤ) := by exact_mod_cast hy1
      have h365 : (365 : ℤ) * 1 ≤ 365 * (y : ℤ) :=
        mul_le_mul_of_nonneg_left hyz (by norm_num)
      omega
    have hz : ∀ y : ℕ, 1 ≤ y → horizonCagr [r] today y = Option.none := by
      intro y hy1
      unfold horizonCagr
      have hfil : List.filter (fun x => decide (x.date ≤ today - 365 * (y : ℤ)))
          [r] = [] := by
        simp [hy y hy1]
      simp [hfil]
    simp [calculate_historical_short_and_long_term_cagr, hz 1 (by norm_num),
      hz 2 (by norm_num), hz 5 (by norm_num), hz 10 (by norm_num),
      hz 15 (by norm_num), hz 20 (by norm_num), combineCagr]

/-- Closed instance of the C5 amended theorem. -/
theorem c5_neutral_values_amended_witness :
    calculate_volatility [Option.some 5] = Option.some 0 ∧
    calculate_sharpe_ratio [] (1 / 100) = Option.none ∧
    calculate_historical_short_and_long_term_cagr [⟨10, 5⟩] 100
        = (Option.none, Option.none) :=
  ⟨c5_neutral_values_amended.1 [Option.some 5] (by decide),
   c5_neutral_values_amended.2.1 [] (1 / 100) (by decide),
   c5_neutral_values_amended.2.2.2 ⟨10, 5⟩ 100 (by decide)⟩
